import Mathlib

/-!
Verification of the spdted DTED Level-2 decoder.

Shallow embedding of the Rust sources:
  - src/coordinate_2d.rs : normalized coordinates (f64 modelled exactly by ℚ)
  - src/parser.rs        : nom-based binary parsers over byte buffers (List Nat)
  - src/tile.rs          : tile bounding box, containment and elevation lookup

Bytes are modelled as natural numbers (each element of a real buffer is < 256).
All arithmetic the Rust code performs on machine integers is carried out on
Nat/Int with explicit wrap-arounds where the machine width matters.  f64
values appearing in the code (angles, normalized coordinates, index
computations) are small integers or exact fractions; they are modelled by ℚ,
which agrees with the reals (the spec's reference semantics) exactly.
-/

/-- Outcome of a fallible decoding step.  `err` is a returned `nom` error
(wrapped into `ParseError::Invalid` at the public boundary), `panic` marks a
Rust panic (e.g. `chunks_exact_mut` invoked with chunk size 0, or an
out-of-bounds slice index): the function never returns in that case. -/
inductive PResult (α : Type) where
  | ok : α → PResult α
  | err : PResult α
  | eofErr : PResult α
  | panic : PResult α
  deriving DecidableEq

/-- Result of `DtedTile::elevation_m`: `Option<i16>` in Rust, with a third
outcome for the panic raised by `ndarray` indexing when an index is out of
bounds. -/
inductive ElevResult where
  | none : ElevResult
  | some : Int → ElevResult
  | panic : ElevResult
  deriving DecidableEq

/-- ASCII decimal digit test, as used by nom's digit-based integer parsers. -/
def isAsciiDigit (b : Nat) : Bool := 48 ≤ b && b ≤ 57

/-- Accumulate the value of the maximal ASCII-digit prefix of a byte list
(nom's `character::complete::u16` loop).  The fields parsed this way in the
UHL are at most 4 bytes, so the value is at most 9999 and the u16 overflow
check in nom can never fire; it is therefore omitted from the model. -/
def digitPrefixVal : List Nat → Nat → Nat
  | [], acc => acc
  | b :: rest, acc =>
    if isAsciiDigit b then digitPrefixVal rest (acc * 10 + (b - 48)) else acc

/-- Model of nom `character::complete::u16` (complete input): fails unless the
input starts with an ASCII digit, otherwise returns the value of the maximal
digit prefix.  Used via `take(n).and_then(u16)`, which discards whatever the
inner parser leaves unconsumed. -/
def nomU16 (input : List Nat) : Option Nat :=
  match input with
  | [] => none
  | b :: _ => if isAsciiDigit b then some (digitPrefixVal input 0) else none

/-- Model of nom `bytes::complete::take(n)`: returns (remaining, taken) or
fails when fewer than `n` bytes remain. -/
def nomTake (n : Nat) (input : List Nat) : Option (List Nat × List Nat) :=
  if n ≤ input.length then some (input.drop n, input.take n) else none

/-- Model of nom `number::complete::be_u32`: big-endian u32 from the first
four bytes. -/
def be_u32 (input : List Nat) : Option Nat :=
  match input with
  | b0 :: b1 :: b2 :: b3 :: _ => some (((b0 * 256 + b1) * 256 + b2) * 256 + b3)
  | _ => none

/-- `parse_angle` from src/parser.rs: format DDDMMSSH.  Three bytes parsed as
a decimal integer via `take(3).and_then(u16)`, four ignored bytes, then a
hemisphere byte from "NESW" (N = 78, E = 69, S = 83, W = 87) giving the sign.
The f64 result is an exact small integer, modelled as ℚ. -/
def parse_angle (input : List Nat) : Option (List Nat × ℚ) :=
  match nomTake 3 input with
  | none => none
  | some (input, deg3) =>
    match nomU16 deg3 with
    | none => none
    | some degrees =>
      match nomTake 4 input with
      | none => none
      | some (input, _) =>
        match input with
        | [] => none
        | h :: input =>
          if h = 78 ∨ h = 69 then some (input, (degrees : ℚ))
          else if h = 83 ∨ h = 87 then some (input, -(degrees : ℚ))
          else none

inductive CoordinateError where
  | LatitudeOutOfRange : CoordinateError
  | LongitudeOutOfRange : CoordinateError
  deriving DecidableEq

/-- `Coordinate2d` from src/coordinate_2d.rs: latitude and longitude each
normalised to [0, 1]. -/
structure Coordinate2d where
  lat : ℚ
  lon : ℚ
  deriving DecidableEq

/-- `Coordinate2d::new`: validates both normalised fields are in [0, 1],
latitude checked first. -/
def Coordinate2d.new (lat lon : ℚ) : Except CoordinateError Coordinate2d :=
  if ¬ (0 ≤ lat ∧ lat ≤ 1) then .error .LatitudeOutOfRange
  else if ¬ (0 ≤ lon ∧ lon ≤ 1) then .error .LongitudeOutOfRange
  else .ok ⟨lat, lon⟩

/-- `Coordinate2d::from_degrees`: normalise degrees and delegate to `new`. -/
def Coordinate2d.from_degrees (lat lon : ℚ) : Except CoordinateError Coordinate2d :=
  Coordinate2d.new ((lat + 90) / 180) ((lon + 180) / 360)

/-- `Coordinate2d::lat_deg`. -/
def Coordinate2d.lat_deg (c : Coordinate2d) : ℚ := c.lat * 180 - 90

/-- `Coordinate2d::lon_deg`. -/
def Coordinate2d.lon_deg (c : Coordinate2d) : ℚ := c.lon * 360 - 180

/-- `DtedHeader` from src/tile.rs. -/
structure DtedHeader where
  origin_sw : Coordinate2d
  num_lat_points : Nat
  num_lon_points : Nat
  deriving DecidableEq

/-- `parse_user_header_label` from src/parser.rs: tag "UHL1" (bytes
85,72,76,49), origin longitude verified against the half-open Rust range
`-180.0..180.0`, origin latitude verified against `-90.0..90.0`, 27 skipped
bytes, the two 4-byte point counts (longitude count first), 25 skipped bytes.
The final `from_degrees(...).expect(...)` cannot fail because the verified
ranges are subsets of the constructor's domain; the unreachable panic branch
is collapsed into `none`. -/
def parse_user_header_label (input : List Nat) : Option (List Nat × DtedHeader) :=
  if input.take 4 = [85, 72, 76, 49] then
    match parse_angle (input.drop 4) with
    | none => none
    | some (input, origin_lon) =>
      if -180 ≤ origin_lon ∧ origin_lon < 180 then
        match parse_angle input with
        | none => none
        | some (input, origin_lat) =>
          if -90 ≤ origin_lat ∧ origin_lat < 90 then
            match nomTake 27 input with
            | none => none
            | some (input, _) =>
              match nomTake 4 input with
              | none => none
              | some (input, lonField) =>
                match nomU16 lonField with
                | none => none
                | some num_lon_points =>
                  match nomTake 4 input with
                  | none => none
                  | some (input, latField) =>
                    match nomU16 latField with
                    | none => none
                    | some num_lat_points =>
                      match nomTake 25 input with
                      | none => none
                      | some (input, _) =>
                        match Coordinate2d.from_degrees origin_lat origin_lon with
                        | .error _ => none
                        | .ok origin =>
                          some (input, ⟨origin, num_lat_points, num_lon_points⟩)
          else none
      else none
  else none

/-- Two's-complement reading of a 16-bit pattern (the value of the returned
`i16`). -/
def toI16 (u : Nat) : Int := if u < 32768 then (u : Int) else (u : Int) - 65536

/-- Wrapping 16-bit subtraction, for the `(x & (1 << 15)) - x` step performed
on `i16` (two's-complement arithmetic on the bit patterns). -/
def sub16 (a b : Nat) : Nat := (a % 65536 + 65536 - b % 65536) % 65536

/-- `parse_height` from src/parser.rs: assemble the big-endian u16
`(b0 << 8) | b1`, then the branchless sign-magnitude to two's-complement
conversion `(!mask & x) | (mask & ((x & (1 << 15)) - x))` with
`mask = x >> 15` (arithmetic shift: bit pattern 0xFFFF when bit 15 is set,
else 0; `!mask` is its 16-bit complement `0xFFFF ^ mask`). -/
def parse_height (b0 b1 : Nat) : Int :=
  let x := b0 <<< 8 ||| b1
  let mask := if x.testBit 15 then 65535 else 0
  toI16 ((65535 ^^^ mask) &&& x ||| mask &&& sub16 (x &&& 32768) x)

/-- The sign-magnitude reference semantics of a 16-bit height pattern, as
stated by the spec: bit 15 is the sign, bits 0–14 the magnitude, and the
negative-zero pattern decodes to 0. -/
def heightRefSpec (u : Nat) : Int :=
  if u < 32768 then (u : Int) else -((u : Int) - 32768)

/-- The checksum accumulation in `parse_dted_record_into`:
`fold(0u32, |acc, &x| acc + x as u32)` over the given bytes.  The additions
are u32 additions, hence the explicit wrap at 2^32 (for real records the sum
is far below 2^32, but the model keeps the machine width). -/
def byteSum32 (bytes : List Nat) : Nat :=
  bytes.foldl (fun acc x => (acc + x) % 4294967296) 0

/-- Decode successive big-endian 2-byte heights, one per element of the
output buffer of length `n` (the `buf.iter_mut().zip(input.chunks_exact(2))`
loop of `parse_dted_record_into`; the zip stops at the shorter side). -/
def heightsOf : List Nat → Nat → List Int
  | b0 :: b1 :: rest, n + 1 => parse_height b0 b1 :: heightsOf rest n
  | _, _ => []

/-- `parse_dted_record_into` from src/parser.rs, for an output buffer of
`nLats` elements.  The caller always passes a chunk of exactly
`nLats * 2 + 12` bytes, so the slice indexing in the Rust code cannot go out
of bounds; it is modelled with take/drop.  The byte-sum of the 8-byte record
header plus the height bytes must equal the big-endian u32 stored after the
height data, otherwise the record is rejected. -/
def parse_dted_record_into (nLats : Nat) (input : List Nat) : Option (List Int) :=
  let record_size := nLats * 2 + 8
  let expected_checksum := byteSum32 (input.take record_size)
  match be_u32 (input.drop record_size) with
  | none => none
  | some checksum =>
    if expected_checksum ≠ checksum then none
    else some (heightsOf ((input.drop 8).take (record_size - 8)) nLats)

/-- The record loop of `parse_dted_data`: `nLons` consecutive chunks of
`recordSize` bytes, each decoded by `parse_dted_record_into`; the decoded
columns are written consecutively into the flat data vector. -/
def parseRecords (nLats recordSize : Nat) : Nat → List Nat → Option (List Int)
  | 0, _ => some []
  | nLons + 1, input =>
    match parse_dted_record_into nLats (input.take recordSize) with
    | none => none
    | some col =>
      match parseRecords nLats recordSize nLons (input.drop recordSize) with
      | none => none
      | some rest => some (col ++ rest)

/-- The elevation grid: `ndarray::Array2<i16>` built by
`Array2::from_shape_vec((n_lats, n_lons).f(), data)`, i.e. a
`rows × cols` matrix over a column-major flat vector. -/
structure Array2 where
  rows : Nat
  cols : Nat
  data : List Int
  deriving DecidableEq

/-- Element (i, j) of a column-major grid: flat index `j * rows + i`. -/
def Array2.get (a : Array2) (i j : Nat) : Int := a.data.getD (j * a.rows + i) 0

/-- `parse_dted_data` from src/parser.rs.  The required input size is checked
first and a too-short input fails with an Eof error before any record is
touched.  When `num_lat_points = 0` the subsequent
`spare_capacity_mut().chunks_exact_mut(n_lats)` call panics (a chunk size of
zero is rejected by the standard library), modelled as `panic`.  Otherwise
exactly `num_lon_points` records are decoded (the spare capacity of
`Vec::with_capacity(n_lats * n_lons)` holds exactly that many columns) and
the grid is assembled column-major; the unconsumed input past the records is
returned. -/
def parse_dted_data (header : DtedHeader) (input : List Nat) :
    PResult (List Nat × Array2) :=
  let n_lats := header.num_lat_points
  let n_lons := header.num_lon_points
  let record_size := n_lats * 2 + 8 + 4
  let required_input_size := record_size * n_lons
  if input.length < required_input_size then .eofErr
  else if n_lats = 0 then .panic
  else
    match parseRecords n_lats record_size n_lons input with
    | none => .err
    | some data =>
      .ok (input.drop required_input_size, ⟨n_lats, n_lons, data⟩)

/-- `DtedTile` from src/tile.rs. -/
structure DtedTile where
  header : DtedHeader
  data : Array2
  deriving DecidableEq

/-- `parse_dted_tile` from src/parser.rs: header, 3348 skipped bytes (DSI and
ACC records), then the data block. -/
def parse_dted_tile (input : List Nat) : PResult (List Nat × DtedTile) :=
  match parse_user_header_label input with
  | none => .err
  | some (input, header) =>
    match nomTake 3348 input with
    | none => .eofErr
    | some (input, _) =>
      match parse_dted_data header input with
      | .ok (input, data) => .ok (input, ⟨header, data⟩)
      | .err => .err
      | .eofErr => .eofErr
      | .panic => .panic

/-- `DtedTile::min_lon_deg`. -/
def DtedTile.min_lon_deg (t : DtedTile) : ℚ := t.header.origin_sw.lon_deg

/-- `DtedTile::max_lon_deg`. -/
def DtedTile.max_lon_deg (t : DtedTile) : ℚ := t.header.origin_sw.lon_deg + 1

/-- `DtedTile::min_lat_deg`. -/
def DtedTile.min_lat_deg (t : DtedTile) : ℚ := t.header.origin_sw.lat_deg

/-- `DtedTile::max_lat_deg`. -/
def DtedTile.max_lat_deg (t : DtedTile) : ℚ := t.header.origin_sw.lat_deg + 1

/-- `DtedTile::contains`: both degree values inside the inclusive ranges
`min..=max`. -/
def DtedTile.contains (t : DtedTile) (c : Coordinate2d) : Prop :=
  (t.min_lat_deg ≤ c.lat_deg ∧ c.lat_deg ≤ t.max_lat_deg) ∧
  (t.min_lon_deg ≤ c.lon_deg ∧ c.lon_deg ≤ t.max_lon_deg)

instance (t : DtedTile) (c : Coordinate2d) : Decidable (t.contains c) :=
  inferInstanceAs (Decidable (And _ _))

/-- Rust `f64 as usize` on the exact real value: truncation toward zero with
negative values saturating to 0, which on ℚ coincides with `⌊q⌋.toNat`. -/
def ratToUsize (q : ℚ) : Nat := (⌊q⌋).toNat

/-- The latitude grid index computed by `DtedTile::elevation_m`:
`(coord.lat_deg() - self.min_lat_deg()) * num_lat as f64` cast `as usize`. -/
def DtedTile.latIndex (t : DtedTile) (c : Coordinate2d) : Nat :=
  ratToUsize ((c.lat_deg - t.min_lat_deg) * t.header.num_lat_points)

/-- The longitude grid index computed by `DtedTile::elevation_m`. -/
def DtedTile.lonIndex (t : DtedTile) (c : Coordinate2d) : Nat :=
  ratToUsize ((c.lon_deg - t.min_lon_deg) * t.header.num_lon_points)

/-- `DtedTile::elevation_m`: `None` outside the tile, otherwise the grid
value at `[lat_index, lon_index]`; `ndarray` panics when an index reaches the
corresponding dimension. -/
def DtedTile.elevation_m (t : DtedTile) (c : Coordinate2d) : ElevResult :=
  if ¬ t.contains c then .none
  else if t.latIndex c < t.data.rows ∧ t.lonIndex c < t.data.cols then
    .some (t.data.get (t.latIndex c) (t.lonIndex c))
  else .panic

/-! ### Concrete fixtures

ASCII byte fixtures used by witnesses and counterexamples: angle fields,
point-count fields, User Header Labels and whole tile buffers. -/

/-- Bytes of the angle field "0080000E" (8 degrees east). -/
def lonAngle8E : List Nat := [48, 48, 56, 48, 48, 48, 48, 69]

/-- Bytes of the angle field "0470000N" (47 degrees north). -/
def latAngle47N : List Nat := [48, 52, 55, 48, 48, 48, 48, 78]

/-- Bytes of the angle field "1800000W" (180 degrees west). -/
def lonAngle180W : List Nat := [49, 56, 48, 48, 48, 48, 48, 87]

/-- Bytes of the angle field "0900000S" (90 degrees south). -/
def latAngle90S : List Nat := [48, 57, 48, 48, 48, 48, 48, 83]

/-- Bytes of the angle field "1800000E" (180 degrees east). -/
def lonAngle180E : List Nat := [49, 56, 48, 48, 48, 48, 48, 69]

/-- Bytes of the point-count field "0001". -/
def cnt1 : List Nat := [48, 48, 48, 49]

/-- Bytes of the point-count field "0000". -/
def cnt0 : List Nat := [48, 48, 48, 48]

/-- An 80-byte User Header Label: origin 47°N 8°E, one point per axis. -/
def hdr1Bytes : List Nat :=
  [85, 72, 76, 49] ++ lonAngle8E ++ latAngle47N ++ List.replicate 27 48 ++
    cnt1 ++ cnt1 ++ List.replicate 25 48

/-- The header decoded from `hdr1Bytes`. -/
def hdr1 : DtedHeader := ⟨⟨137 / 180, 47 / 90⟩, 1, 1⟩

/-- An 80-byte User Header Label whose origin is 90°S 180°W (both at the
lower boundary of the Rust half-open verification ranges). -/
def hdrC4Bytes : List Nat :=
  [85, 72, 76, 49] ++ lonAngle180W ++ latAngle90S ++ List.replicate 27 48 ++
    cnt1 ++ cnt1 ++ List.replicate 25 48

/-- The header decoded from `hdrC4Bytes`: normalised origin (0, 0). -/
def hdrC4 : DtedHeader := ⟨⟨0, 0⟩, 1, 1⟩

/-- An 80-byte User Header Label declaring zero longitude points ("0000")
and one latitude point. -/
def hdrC9Bytes : List Nat :=
  [85, 72, 76, 49] ++ lonAngle8E ++ latAngle47N ++ List.replicate 27 48 ++
    cnt0 ++ cnt1 ++ List.replicate 25 48

/-- The header decoded from `hdrC9Bytes`. -/
def hdrC9 : DtedHeader := ⟨⟨137 / 180, 47 / 90⟩, 1, 0⟩

/-- An 80-byte User Header Label declaring one longitude point and zero
latitude points ("0000"). -/
def hdrC1Bytes : List Nat :=
  [85, 72, 76, 49] ++ lonAngle8E ++ latAngle47N ++ List.replicate 27 48 ++
    cnt1 ++ cnt0 ++ List.replicate 25 48

/-- The header decoded from `hdrC1Bytes`. -/
def hdrC1 : DtedHeader := ⟨⟨137 / 180, 47 / 90⟩, 0, 1⟩

/-- The checksum test applied by `parse_dted_record_into` to one record chunk
(8-byte record header, `2 * nLats` height bytes, 4-byte stored checksum): the
big-endian u32 after the height data equals the byte sum of everything before
it. -/
def recordChecksumOk (nLats : Nat) (chunk : List Nat) : Prop :=
  be_u32 (chunk.drop (nLats * 2 + 8)) = some (byteSum32 (chunk.take (nLats * 2 + 8)))

instance (nLats : Nat) (chunk : List Nat) : Decidable (recordChecksumOk nLats chunk) :=
  inferInstanceAs (Decidable (Eq _ _))

/-- A valid 14-byte data record for a 1-height column: zero record header,
height bytes 0x00 0x05, stored checksum 5. -/
def record14ok : List Nat := [0, 0, 0, 0, 0, 0, 0, 0, 0, 5, 0, 0, 0, 5]

/-- The 1×1 grid decoded from `record14ok`. -/
def grid1 : Array2 := ⟨1, 1, [5]⟩

/-- A complete DTED tile buffer: `hdr1Bytes`, 3348 skipped bytes, one record. -/
def tile1Bytes : List Nat := hdr1Bytes ++ (List.replicate 3348 48 ++ record14ok)

/-- The tile decoded from `tile1Bytes`. -/
def tile1 : DtedTile := ⟨hdr1, grid1⟩

/-- A complete tile buffer declaring zero longitude points: `hdrC9Bytes`,
3348 skipped bytes, no records. -/
def tileC9Bytes : List Nat := hdrC9Bytes ++ (List.replicate 3348 48 ++ [])

/-- The tile decoded from `tileC9Bytes`: an empty 1×0 grid. -/
def tileC9 : DtedTile := ⟨hdrC9, ⟨1, 0, []⟩⟩

/-- A 12-byte record for a 0-height column whose stored checksum (1) differs
from the byte sum of its header (0). -/
def record12bad : List Nat := [0, 0, 0, 0, 0, 0, 0, 0, 0, 0, 0, 1]

/-- A complete tile buffer declaring zero latitude points, with one
mismatched-checksum record: `hdrC1Bytes`, 3348 skipped bytes, the record. -/
def tileC1Bytes : List Nat := hdrC1Bytes ++ (List.replicate 3348 48 ++ record12bad)

/-- A coordinate at latitude 48° (the exact northern boundary of `tile1`) and
longitude 8° (the western boundary). -/
def coordC3 : Coordinate2d := ⟨23 / 30, 47 / 90⟩

/-- A coordinate strictly inside `tile1`: latitude 47.5°, longitude 8.5°. -/
def coordIn : Coordinate2d := ⟨55 / 72, 377 / 720⟩

/-- The sign an angle field's hemisphere byte contributes: +1 for N (78) or
E (69), −1 otherwise (only S (83) and W (87) survive parsing). -/
def hemiSign (b : Nat) : ℚ := if b = 78 ∨ b = 69 then 1 else -1

/-- The claim's reading of "the 3-byte degrees field is a decimal integer":
the field is nonempty and every byte is an ASCII digit. -/
def isDecimalIntegerField (l : List Nat) : Prop :=
  l ≠ [] ∧ ∀ b ∈ l, isAsciiDigit b = true

instance (l : List Nat) : Decidable (isDecimalIntegerField l) :=
  inferInstanceAs (Decidable (And _ _))

/-- A 14-byte record for one height whose stored checksum (9) differs from
the byte sum of header and height bytes (5). -/
def record14bad : List Nat := [0, 0, 0, 0, 0, 0, 0, 0, 0, 5, 0, 0, 0, 9]

/-- The i-th decoded height of the j-th on-disk record of a data block, read
directly at its byte offsets: record j starts at byte `j * (2*nLats + 8 + 4)`
and its height bytes start 8 bytes later. -/
def recordHeight (nLats : Nat) (input : List Nat) (j i : Nat) : Int :=
  parse_height (input.getD (j * (nLats * 2 + 8 + 4) + 8 + 2 * i) 0)
    (input.getD (j * (nLats * 2 + 8 + 4) + 8 + 2 * i + 1) 0)

/-! ### Theorems -/

theorem nomTake_append {n : Nat} (pre l : List Nat) (h : pre.length = n) :
    nomTake n (pre ++ l) = some (l, pre) := by
  unfold nomTake
  rw [List.length_append, h, if_pos (Nat.le_add_right n l.length),
    List.take_left' h, List.drop_left' h]

theorem parse_angle_cons8 (d0 d1 d2 m0 m1 m2 m3 hb : Nat) (l : List Nat) :
    parse_angle (d0 :: d1 :: d2 :: m0 :: m1 :: m2 :: m3 :: hb :: l) =
      match nomU16 [d0, d1, d2] with
      | none => none
      | some degrees =>
        if hb = 78 ∨ hb = 69 then some (l, (degrees : ℚ))
        else if hb = 83 ∨ hb = 87 then some (l, -(degrees : ℚ))
        else none := by
  unfold parse_angle
  rw [show d0 :: d1 :: d2 :: m0 :: m1 :: m2 :: m3 :: hb :: l =
        [d0, d1, d2] ++ (m0 :: m1 :: m2 :: m3 :: hb :: l) from rfl,
    nomTake_append (n := 3) [d0, d1, d2] _ rfl]
  simp only []
  cases hn : nomU16 [d0, d1, d2] with
  | none => rfl
  | some degrees =>
    simp only []
    rw [show m0 :: m1 :: m2 :: m3 :: hb :: l =
          [m0, m1, m2, m3] ++ (hb :: l) from rfl,
      nomTake_append (n := 4) [m0, m1, m2, m3] _ rfl]

theorem from_degrees_ok (lat lon : ℚ) (hlat2 : -90 ≤ lat ∧ lat ≤ 90)
    (hlon2 : -180 ≤ lon ∧ lon ≤ 180) :
    Coordinate2d.from_degrees lat lon = .ok ⟨(lat + 90) / 180, (lon + 180) / 360⟩ := by
  unfold Coordinate2d.from_degrees Coordinate2d.new
  rw [if_neg (not_not_intro
      ⟨div_nonneg (by linarith [hlat2.1]) (by norm_num),
        (div_le_one (by norm_num : (0:ℚ) < 180)).mpr (by linarith [hlat2.2])⟩),
    if_neg (not_not_intro
      ⟨div_nonneg (by linarith [hlon2.1]) (by norm_num),
        (div_le_one (by norm_num : (0:ℚ) < 360)).mpr (by linarith [hlon2.2])⟩)]

theorem parse_uhl_eval (lonA latA f27 c4a c4b f25 l : List Nat) (vlon vlat : ℚ)
    (nlon nlat : Nat)
    (hlonA : ∀ t, parse_angle (lonA ++ t) = some (t, vlon))
    (hlatA : ∀ t, parse_angle (latA ++ t) = some (t, vlat))
    (hvlon : -180 ≤ vlon ∧ vlon < 180) (hvlat : -90 ≤ vlat ∧ vlat < 90)
    (h27 : f27.length = 27) (h4a : c4a.length = 4) (h4b : c4b.length = 4)
    (h25 : f25.length = 25)
    (ha : nomU16 c4a = some nlon) (hb : nomU16 c4b = some nlat) :
    parse_user_header_label
        ([85, 72, 76, 49] ++ (lonA ++ (latA ++ (f27 ++ (c4a ++ (c4b ++ (f25 ++ l)))))))
      = some (l, ⟨⟨(vlat + 90) / 180, (vlon + 180) / 360⟩, nlat, nlon⟩) := by
  unfold parse_user_header_label
  rw [List.take_left' (show ([85, 72, 76, 49] : List Nat).length = 4 from rfl),
    if_pos rfl,
    List.drop_left' (show ([85, 72, 76, 49] : List Nat).length = 4 from rfl),
    hlonA]
  simp only []
  rw [if_pos hvlon, hlatA]
  simp only []
  rw [if_pos hvlat, nomTake_append f27 _ h27]
  simp only []
  rw [nomTake_append c4a _ h4a]
  simp only []
  rw [ha]
  simp only []
  rw [nomTake_append c4b _ h4b]
  simp only []
  rw [hb]
  simp only []
  rw [nomTake_append f25 _ h25]
  simp only []
  rw [from_degrees_ok vlat vlon ⟨hvlat.1, le_of_lt hvlat.2⟩ ⟨hvlon.1, le_of_lt hvlon.2⟩]

theorem parse_tile_eval (hdrB dataB : List Nat) (hdr : DtedHeader)
    (hh : ∀ t, parse_user_header_label (hdrB ++ t) = some (t, hdr)) :
    parse_dted_tile (hdrB ++ (List.replicate 3348 48 ++ dataB)) =
      match parse_dted_data hdr dataB with
      | .ok (r, d) => .ok (r, ⟨hdr, d⟩)
      | .err => .err
      | .eofErr => .eofErr
      | .panic => .panic := by
  unfold parse_dted_tile
  rw [hh]
  simp only []
  rw [nomTake_append _ _ (List.length_replicate 3348 48)]

/-! ### Fixture evaluations

Parsing a concrete buffer is proved compositionally (prefix by prefix) so
that the 3348 skipped DSI/ACC bytes never have to be reduced element by
element. -/

theorem lonAngle8E_eval (t : List Nat) : parse_angle (lonAngle8E ++ t) = some (t, 8) := by
  rw [show lonAngle8E ++ t = 48 :: 48 :: 56 :: 48 :: 48 :: 48 :: 48 :: 69 :: t from rfl,
    parse_angle_cons8, show nomU16 [48, 48, 56] = some 8 from rfl]
  norm_num

theorem latAngle47N_eval (t : List Nat) : parse_angle (latAngle47N ++ t) = some (t, 47) := by
  rw [show latAngle47N ++ t = 48 :: 52 :: 55 :: 48 :: 48 :: 48 :: 48 :: 78 :: t from rfl,
    parse_angle_cons8, show nomU16 [48, 52, 55] = some 47 from rfl]
  norm_num

theorem lonAngle180W_eval (t : List Nat) :
    parse_angle (lonAngle180W ++ t) = some (t, -180) := by
  rw [show lonAngle180W ++ t = 49 :: 56 :: 48 :: 48 :: 48 :: 48 :: 48 :: 87 :: t from rfl,
    parse_angle_cons8, show nomU16 [49, 56, 48] = some 180 from rfl]
  norm_num

theorem latAngle90S_eval (t : List Nat) :
    parse_angle (latAngle90S ++ t) = some (t, -90) := by
  rw [show latAngle90S ++ t = 48 :: 57 :: 48 :: 48 :: 48 :: 48 :: 48 :: 83 :: t from rfl,
    parse_angle_cons8, show nomU16 [48, 57, 48] = some 90 from rfl]
  norm_num

theorem lonAngle180E_eval (t : List Nat) :
    parse_angle (lonAngle180E ++ t) = some (t, 180) := by
  rw [show lonAngle180E ++ t = 49 :: 56 :: 48 :: 48 :: 48 :: 48 :: 48 :: 69 :: t from rfl,
    parse_angle_cons8, show nomU16 [49, 56, 48] = some 180 from rfl]
  norm_num

theorem hdr1_eval (t : List Nat) :
    parse_user_header_label (hdr1Bytes ++ t) = some (t, hdr1) := by
  rw [show hdr1Bytes ++ t =
        [85, 72, 76, 49] ++ (lonAngle8E ++ (latAngle47N ++ (List.replicate 27 48 ++
          (cnt1 ++ (cnt1 ++ (List.replicate 25 48 ++ t)))))) from by
      simp [hdr1Bytes, List.append_assoc],
    parse_uhl_eval lonAngle8E latAngle47N (List.replicate 27 48) cnt1 cnt1
      (List.replicate 25 48) t 8 47 1 1 lonAngle8E_eval latAngle47N_eval
      (by norm_num) (by norm_num) (List.length_replicate 27 48) rfl rfl
      (List.length_replicate 25 48) rfl rfl]
  norm_num [hdr1]

theorem hdrC4_eval (t : List Nat) :
    parse_user_header_label (hdrC4Bytes ++ t) = some (t, hdrC4) := by
  rw [show hdrC4Bytes ++ t =
        [85, 72, 76, 49] ++ (lonAngle180W ++ (latAngle90S ++ (List.replicate 27 48 ++
          (cnt1 ++ (cnt1 ++ (List.replicate 25 48 ++ t)))))) from by
      simp [hdrC4Bytes, List.append_assoc],
    parse_uhl_eval lonAngle180W latAngle90S (List.replicate 27 48) cnt1 cnt1
      (List.replicate 25 48) t (-180) (-90) 1 1 lonAngle180W_eval latAngle90S_eval
      (by norm_num) (by norm_num) (List.length_replicate 27 48) rfl rfl
      (List.length_replicate 25 48) rfl rfl]
  norm_num [hdrC4]

theorem hdrC9_eval (t : List Nat) :
    parse_user_header_label (hdrC9Bytes ++ t) = some (t, hdrC9) := by
  rw [show hdrC9Bytes ++ t =
        [85, 72, 76, 49] ++ (lonAngle8E ++ (latAngle47N ++ (List.replicate 27 48 ++
          (cnt0 ++ (cnt1 ++ (List.replicate 25 48 ++ t)))))) from by
      simp [hdrC9Bytes, List.append_assoc],
    parse_uhl_eval lonAngle8E latAngle47N (List.replicate 27 48) cnt0 cnt1
      (List.replicate 25 48) t 8 47 0 1 lonAngle8E_eval latAngle47N_eval
      (by norm_num) (by norm_num) (List.length_replicate 27 48) rfl rfl
      (List.length_replicate 25 48) rfl rfl]
  norm_num [hdrC9]

theorem hdrC1_eval (t : List Nat) :
    parse_user_header_label (hdrC1Bytes ++ t) = some (t, hdrC1) := by
  rw [show hdrC1Bytes ++ t =
        [85, 72, 76, 49] ++ (lonAngle8E ++ (latAngle47N ++ (List.replicate 27 48 ++
          (cnt1 ++ (cnt0 ++ (List.replicate 25 48 ++ t)))))) from by
      simp [hdrC1Bytes, List.append_assoc],
    parse_uhl_eval lonAngle8E latAngle47N (List.replicate 27 48) cnt1 cnt0
      (List.replicate 25 48) t 8 47 1 0 lonAngle8E_eval latAngle47N_eval
      (by norm_num) (by norm_num) (List.length_replicate 27 48) rfl rfl
      (List.length_replicate 25 48) rfl rfl]
  norm_num [hdrC1]

theorem data1_eval : parse_dted_data hdr1 record14ok = .ok ([], grid1) := by decide

theorem tile1_eval : parse_dted_tile tile1Bytes = .ok ([], tile1) := by
  rw [show tile1Bytes = hdr1Bytes ++ (List.replicate 3348 48 ++ record14ok) from rfl,
    parse_tile_eval _ _ _ hdr1_eval, data1_eval]
  rfl

theorem dataC9_eval : parse_dted_data hdrC9 [] = .ok ([], ⟨1, 0, []⟩) := by decide

theorem tileC9_eval : parse_dted_tile tileC9Bytes = .ok ([], tileC9) := by
  rw [show tileC9Bytes = hdrC9Bytes ++ (List.replicate 3348 48 ++ []) from rfl,
    parse_tile_eval _ _ _ hdrC9_eval, dataC9_eval]
  rfl

theorem dataC1_eval : parse_dted_data hdrC1 record12bad = .panic := by decide

theorem tileC1_eval : parse_dted_tile tileC1Bytes = .panic := by
  rw [show tileC1Bytes = hdrC1Bytes ++ (List.replicate 3348 48 ++ record12bad) from rfl,
    parse_tile_eval _ _ _ hdrC1_eval, dataC1_eval]

/-- C10: for every lat_deg in [-90, 90] and lon_deg in [-180, 180],
`from_degrees` succeeds and the degree accessors invert the normalisation
(exactly, over the exact rational semantics of the reals). -/
theorem C10_from_degrees_roundtrip (lat lon : ℚ)
    (hlat : -90 ≤ lat ∧ lat ≤ 90) (hlon : -180 ≤ lon ∧ lon ≤ 180) :
    ∃ c : Coordinate2d, Coordinate2d.from_degrees lat lon = .ok c ∧
      c.lat_deg = lat ∧ c.lon_deg = lon := by
  refine ⟨⟨(lat + 90) / 180, (lon + 180) / 360⟩, from_degrees_ok lat lon hlat hlon, ?_, ?_⟩
  · unfold Coordinate2d.lat_deg
    ring
  · unfold Coordinate2d.lon_deg
    ring

/-- Witness for C10 at latitude 45, longitude 90. -/
theorem C10_witness :
    ∃ c : Coordinate2d, Coordinate2d.from_degrees 45 90 = .ok c ∧
      c.lat_deg = 45 ∧ c.lon_deg = 90 :=
  C10_from_degrees_roundtrip 45 90 (by norm_num) (by norm_num)

/-- C5: when the buffer holds fewer than
`num_lon_points * (8 + 2 * num_lat_points + 4)` bytes, `parse_dted_data`
fails at once with the end-of-input error — no record is parsed and nothing
panics or reads out of bounds. -/
theorem C5_short_input_eof (h : DtedHeader) (input : List Nat)
    (hshort : input.length < (h.num_lat_points * 2 + 8 + 4) * h.num_lon_points) :
    parse_dted_data h input = .eofErr := by
  unfold parse_dted_data
  rw [if_pos hshort]

/-- Witness for C5: the empty buffer against the 1×1 header. -/
theorem C5_witness : parse_dted_data hdr1 [] = .eofErr :=
  C5_short_input_eof hdr1 [] (by decide)

/-- C4 counterexample: the 80-byte header `hdrC4Bytes` carries origin
longitude −180 and origin latitude −90, and `parse_user_header_label`
accepts it (the Rust ranges `-180.0..180.0` and `-90.0..90.0` are half-open,
so the lower endpoints are NOT rejected as the claim states). -/
theorem C4_counterexample :
    parse_user_header_label hdrC4Bytes = some ([], hdrC4) ∧
      hdrC4.origin_sw.lon_deg = -180 ∧ hdrC4.origin_sw.lat_deg = -90 := by
  refine ⟨?_, by norm_num [hdrC4, Coordinate2d.lon_deg],
    by norm_num [hdrC4, Coordinate2d.lat_deg]⟩
  have h := hdrC4_eval []
  simpa using h

/-- C4 amended: header parsing fails whenever the decoded origin longitude is
outside the half-open interval [-180, 180), and whenever the decoded origin
latitude is outside [-90, 90); the lower endpoints −180 and −90 are accepted,
the upper endpoints 180 and 90 rejected. -/
theorem C4_header_angle_ranges (input rest rest2 : List Nat) (vlon vlat : ℚ) :
    (parse_angle (input.drop 4) = some (rest, vlon) →
      ¬ (-180 ≤ vlon ∧ vlon < 180) → parse_user_header_label input = none) ∧
    (parse_angle (input.drop 4) = some (rest, vlon) →
      parse_angle rest = some (rest2, vlat) →
      ¬ (-90 ≤ vlat ∧ vlat < 90) → parse_user_header_label input = none) := by
  constructor
  · intro h1 hbad
    unfold parse_user_header_label
    by_cases htag : input.take 4 = [85, 72, 76, 49]
    · rw [if_pos htag, h1]
      simp only []
      rw [if_neg hbad]
    · rw [if_neg htag]
  · intro h1 h2 hbad
    unfold parse_user_header_label
    by_cases htag : input.take 4 = [85, 72, 76, 49]
    · rw [if_pos htag, h1]
      simp only []
      by_cases hok : -180 ≤ vlon ∧ vlon < 180
      · rw [if_pos hok, h2]
        simp only []
        rw [if_neg hbad]
      · rw [if_neg hok]
    · rw [if_neg htag]

/-- Witness for the amended C4: a header whose origin longitude decodes to
exactly +180 is rejected. -/
theorem C4_witness :
    parse_user_header_label ([85, 72, 76, 49] ++ (lonAngle180E ++ latAngle47N)) = none :=
  (C4_header_angle_ranges ([85, 72, 76, 49] ++ (lonAngle180E ++ latAngle47N))
      latAngle47N latAngle47N 180 47).1
    (lonAngle180E_eval latAngle47N)
    (by norm_num)

/-- C7: for a decoded tile with integer-degree origin, a coordinate accepted
by `contains` whose latitude (resp. longitude) equals the maximum boundary
gets `lat_index = num_lat_points` (resp. `lon_index = num_lon_points`) — one
past the last valid index — and, when the grid rows match the header count
(as they do for every decoded tile), the lookup is out of bounds. -/
theorem C7_boundary_index_oob (t : DtedTile) (c : Coordinate2d)
    (hzlat : ∃ z : ℤ, t.min_lat_deg = (z : ℚ))
    (hzlon : ∃ z : ℤ, t.min_lon_deg = (z : ℚ))
    (hcont : t.contains c) :
    (c.lat_deg = t.max_lat_deg → t.latIndex c = t.header.num_lat_points) ∧
    (c.lon_deg = t.max_lon_deg → t.lonIndex c = t.header.num_lon_points) ∧
    (c.lat_deg = t.max_lat_deg → t.data.rows = t.header.num_lat_points →
      t.elevation_m c = .panic) := by
  have hlat : c.lat_deg = t.max_lat_deg → t.latIndex c = t.header.num_lat_points := by
    intro he
    unfold DtedTile.latIndex ratToUsize
    rw [he, show t.max_lat_deg - t.min_lat_deg = 1 by
      unfold DtedTile.max_lat_deg DtedTile.min_lat_deg; ring, one_mul,
      Int.floor_natCast]
    exact Int.toNat_natCast _
  refine ⟨hlat, ?_, ?_⟩
  · intro he
    unfold DtedTile.lonIndex ratToUsize
    rw [he, show t.max_lon_deg - t.min_lon_deg = 1 by
      unfold DtedTile.max_lon_deg DtedTile.min_lon_deg; ring, one_mul,
      Int.floor_natCast]
    exact Int.toNat_natCast _
  · intro he hrows
    unfold DtedTile.elevation_m
    rw [if_neg (not_not_intro hcont),
      if_neg (by rw [hlat he, hrows]; exact fun hc => absurd hc.1 (lt_irrefl _))]

/-- Witness for C7: `tile1` (origin 47°N 8°E) with the boundary coordinate
`coordC3` (48°N 8°E). -/
theorem C7_witness :
    (coordC3.lat_deg = tile1.max_lat_deg → tile1.latIndex coordC3 = tile1.header.num_lat_points) ∧
    (coordC3.lon_deg = tile1.max_lon_deg → tile1.lonIndex coordC3 = tile1.header.num_lon_points) ∧
    (coordC3.lat_deg = tile1.max_lat_deg → tile1.data.rows = tile1.header.num_lat_points →
      tile1.elevation_m coordC3 = .panic) :=
  C7_boundary_index_oob tile1 coordC3
    ⟨47, by with_unfolding_all decide⟩ ⟨8, by with_unfolding_all decide⟩
    (by with_unfolding_all decide)

/-- C3 counterexample: `tile1` decodes from `tile1Bytes`, the boundary
coordinate `coordC3` (latitude exactly `max_lat_deg`) is accepted by
`contains`, yet `elevation_m` neither returns `None` nor a grid value — the
computed row index equals the row count and the `ndarray` access panics. -/
theorem C3_counterexample :
    parse_dted_tile tile1Bytes = .ok ([], tile1) ∧
      tile1.contains coordC3 ∧ tile1.elevation_m coordC3 = .panic := by
  refine ⟨tile1_eval, ?_, ?_⟩
  · with_unfolding_all decide
  · with_unfolding_all decide

/-- C3 amended: `elevation_m` returns `None` iff the coordinate is outside
the tile; when the coordinate is inside, the computed indices are the floors
`⌊(coord - min) * num_points⌋`, and whenever both floor indices are within
the grid bounds the grid value at them is returned (at the exact maximum
boundary the index reaches the point count and the access is out of
bounds). -/
theorem C3_elevation_lookup (t : DtedTile) (c : Coordinate2d) :
    (t.elevation_m c = .none ↔ ¬ t.contains c) ∧
    (t.contains c →
      (t.latIndex c : ℤ) = ⌊(c.lat_deg - t.min_lat_deg) * t.header.num_lat_points⌋ ∧
      (t.lonIndex c : ℤ) = ⌊(c.lon_deg - t.min_lon_deg) * t.header.num_lon_points⌋) ∧
    (t.contains c → t.latIndex c < t.data.rows → t.lonIndex c < t.data.cols →
      t.elevation_m c = .some (t.data.get (t.latIndex c) (t.lonIndex c))) := by
  refine ⟨?_, ?_, ?_⟩
  · by_cases hc : t.contains c
    · unfold DtedTile.elevation_m
      rw [if_neg (not_not_intro hc)]
      by_cases hidx : t.latIndex c < t.data.rows ∧ t.lonIndex c < t.data.cols
      · rw [if_pos hidx]
        simp [hc]
      · rw [if_neg hidx]
        simp [hc]
    · unfold DtedTile.elevation_m
      rw [if_pos hc]
      simp [hc]
  · intro hc
    constructor
    · unfold DtedTile.latIndex ratToUsize
      exact Int.toNat_of_nonneg (Int.floor_nonneg.mpr
        (mul_nonneg (sub_nonneg.mpr hc.1.1) (Nat.cast_nonneg _)))
    · unfold DtedTile.lonIndex ratToUsize
      exact Int.toNat_of_nonneg (Int.floor_nonneg.mpr
        (mul_nonneg (sub_nonneg.mpr hc.2.1) (Nat.cast_nonneg _)))
  · intro hc h1 h2
    unfold DtedTile.elevation_m
    rw [if_neg (not_not_intro hc), if_pos ⟨h1, h2⟩]

/-- Witness for the amended C3: the interior coordinate `coordIn` of `tile1`
looks up the single stored height, 5. -/
theorem C3_witness : tile1.elevation_m coordIn = .some 5 := by
  have h := (C3_elevation_lookup tile1 coordIn).2.2
    (by with_unfolding_all decide) (by with_unfolding_all decide)
    (by with_unfolding_all decide)
  exact h.trans (by with_unfolding_all decide)

theorem digitPrefixVal_lt (l : List Nat) (acc : Nat) :
    digitPrefixVal l acc < (acc + 1) * 10 ^ l.length := by
  induction l generalizing acc with
  | nil => simpa [digitPrefixVal] using Nat.lt_succ_self acc
  | cons b rest ih =>
    unfold digitPrefixVal
    by_cases hb : isAsciiDigit b
    · rw [if_pos hb]
      calc digitPrefixVal rest (acc * 10 + (b - 48))
          < (acc * 10 + (b - 48) + 1) * 10 ^ rest.length := ih _
        _ ≤ ((acc + 1) * 10) * 10 ^ rest.length := by
            have hb9 : b - 48 ≤ 9 := by
              unfold isAsciiDigit at hb
              simp only [Bool.and_eq_true, decide_eq_true_eq] at hb
              omega
            exact Nat.mul_le_mul_right _ (by omega)
        _ = (acc + 1) * 10 ^ (b :: rest).length := by
            rw [List.length_cons, pow_succ]
            ring
    · rw [if_neg hb]
      calc acc < acc + 1 := Nat.lt_succ_self acc
        _ ≤ (acc + 1) * 10 ^ (b :: rest).length :=
            Nat.le_mul_of_pos_right _ (pow_pos (by norm_num) _)

theorem nomU16_lt (l : List Nat) (v : Nat) (h : nomU16 l = some v) :
    v < 10 ^ l.length := by
  rcases l with _ | ⟨b, rest⟩
  · simp [nomU16] at h
  · unfold nomU16 at h
    simp only [] at h
    split at h
    · injection h with h'
      subst h'
      simpa using digitPrefixVal_lt (b :: rest) 0
    · cases h

theorem nomTake_inv {n : Nat} {input out1 out2 : List Nat}
    (h : nomTake n input = some (out1, out2)) :
    out2 = input.take n ∧ out1 = input.drop n := by
  unfold nomTake at h
  split at h
  · simp only [Option.some.injEq, Prod.mk.injEq] at h
    exact ⟨h.2.symm, h.1.symm⟩
  · cases h

/-- C9 counterexample: the complete buffer `tileC9Bytes`, whose header
declares zero longitude points ("0000"), decodes successfully into a tile
whose `num_lon_points` is 0 — the point counts produced by a successful
parse need not be positive. -/
theorem C9_counterexample :
    parse_dted_tile tileC9Bytes = .ok ([], tileC9) ∧
      tileC9.header.num_lon_points = 0 :=
  ⟨tileC9_eval, rfl⟩

/-- C9 amended: for every header produced by a successful parse, the point
counts are natural numbers at most 9999 (4 ASCII digits); they are not
guaranteed to be positive — "0000" is accepted and yields 0. -/
theorem C9_counts_le (input rest : List Nat) (hd : DtedHeader)
    (hp : parse_user_header_label input = some (rest, hd)) :
    hd.num_lat_points ≤ 9999 ∧ hd.num_lon_points ≤ 9999 := by
  unfold parse_user_header_label at hp
  by_cases h1 : input.take 4 = [85, 72, 76, 49]
  swap
  · rw [if_neg h1] at hp
    cases hp
  rw [if_pos h1] at hp
  rcases ha1 : parse_angle (input.drop 4) with _ | ⟨r1, vlon⟩ <;> rw [ha1] at hp
  · cases hp
  simp only [] at hp
  by_cases h2 : -180 ≤ vlon ∧ vlon < 180
  swap
  · rw [if_neg h2] at hp
    cases hp
  rw [if_pos h2] at hp
  rcases ha2 : parse_angle r1 with _ | ⟨r2, vlat⟩ <;> rw [ha2] at hp
  · cases hp
  simp only [] at hp
  by_cases h3 : -90 ≤ vlat ∧ vlat < 90
  swap
  · rw [if_neg h3] at hp
    cases hp
  rw [if_pos h3] at hp
  rcases ht1 : nomTake 27 r2 with _ | ⟨r3, sk27⟩ <;> rw [ht1] at hp
  · cases hp
  simp only [] at hp
  rcases ht2 : nomTake 4 r3 with _ | ⟨r4, lonF⟩ <;> rw [ht2] at hp
  · cases hp
  simp only [] at hp
  rcases hu1 : nomU16 lonF with _ | nlon <;> rw [hu1] at hp
  · cases hp
  simp only [] at hp
  rcases ht3 : nomTake 4 r4 with _ | ⟨r5, latF⟩ <;> rw [ht3] at hp
  · cases hp
  simp only [] at hp
  rcases hu2 : nomU16 latF with _ | nlat <;> rw [hu2] at hp
  · cases hp
  simp only [] at hp
  rcases ht4 : nomTake 25 r5 with _ | ⟨r6, sk25⟩ <;> rw [ht4] at hp
  · cases hp
  simp only [] at hp
  rcases hfd : Coordinate2d.from_degrees vlat vlon with e | origin <;> rw [hfd] at hp
  · cases hp
  simp only [Option.some.injEq, Prod.mk.injEq] at hp
  obtain ⟨hr, hhd⟩ := hp
  subst hhd
  have hlonF : lonF.length ≤ 4 := by
    rw [(nomTake_inv ht2).1, List.length_take]
    exact min_le_left _ _
  have hlatF : latF.length ≤ 4 := by
    rw [(nomTake_inv ht3).1, List.length_take]
    exact min_le_left _ _
  have b1 : nlon < 10 ^ lonF.length := nomU16_lt _ _ hu1
  have b2 : nlat < 10 ^ latF.length := nomU16_lt _ _ hu2
  have p1 : (10 : Nat) ^ lonF.length ≤ 10 ^ 4 :=
    Nat.pow_le_pow_right (by norm_num) hlonF
  have p2 : (10 : Nat) ^ latF.length ≤ 10 ^ 4 :=
    Nat.pow_le_pow_right (by norm_num) hlatF
  constructor
  · simp only []
    omega
  · simp only []
    omega

/-- Witness for the amended C9: the parse of `hdr1Bytes` has both counts at
most 9999. -/
theorem C9_witness :
    hdr1.num_lat_points ≤ 9999 ∧ hdr1.num_lon_points ≤ 9999 :=
  C9_counts_le (hdr1Bytes ++ []) [] hdr1 (hdr1_eval [])

/-- C2: for every 2-byte big-endian input, the branchless height decoder
agrees with the sign-magnitude reference semantics — bit 15 clear gives the
magnitude, bit 15 set gives the negated magnitude, and the negative-zero
pattern 0x8000 gives 0. -/
theorem C2_parse_height_signMagnitude (b0 b1 : Nat) (hb0 : b0 < 256) (hb1 : b1 < 256) :
    parse_height b0 b1 = heightRefSpec (256 * b0 + b1) := by
  have hx : b0 <<< 8 ||| b1 = 256 * b0 + b1 := by
    have hb1' : b1 < 2 ^ 8 := by simpa using hb1
    rw [Nat.shiftLeft_eq, show b0 * 2 ^ 8 = 2 ^ 8 * b0 by ring,
      ← Nat.mul_add_lt_is_or hb1' b0]
  simp only [parse_height]
  rw [hx]
  set u := 256 * b0 + b1 with hu_def
  have hu : u < 65536 := by omega
  rcases Nat.lt_or_ge u 32768 with hlt | hge
  · have htb : u.testBit 15 = false :=
      Nat.testBit_lt_two_pow (by simpa using hlt)
    rw [htb]
    simp only [Bool.false_eq_true, if_false]
    rw [Nat.xor_zero, Nat.zero_and, Nat.or_zero]
    have h1 : 65535 &&& u = u := by
      rw [Nat.land_comm, show (65535 : Nat) = 2 ^ 16 - 1 by norm_num,
        Nat.and_pow_two_sub_one_eq_mod]
      exact Nat.mod_eq_of_lt hu
    rw [h1]
    unfold toI16 heightRefSpec
    rw [if_pos hlt, if_pos hlt]
  · have htb : u.testBit 15 = true := by
      rw [Nat.testBit_to_div_mod, show (2 : Nat) ^ 15 = 32768 from rfl]
      simp only [decide_eq_true_eq]
      omega
    rw [htb]
    simp only [if_true]
    rw [Nat.xor_self, Nat.zero_and, Nat.zero_or]
    have hand : u &&& 32768 = 32768 := by
      have h2p := Nat.and_two_pow u 15
      rw [htb] at h2p
      simpa using h2p
    rw [hand]
    have hsub : sub16 32768 u = (98304 - u) % 65536 := by
      unfold sub16
      rw [Nat.mod_eq_of_lt hu]
    rw [hsub]
    have h2 : 65535 &&& (98304 - u) % 65536 = (98304 - u) % 65536 := by
      rw [Nat.land_comm, show (65535 : Nat) = 2 ^ 16 - 1 by norm_num,
        Nat.and_pow_two_sub_one_eq_mod]
      omega
    rw [h2]
    unfold toI16 heightRefSpec
    rw [if_neg (by omega : ¬ u < 32768)]
    rcases Nat.eq_or_lt_of_le hge with heq | hgt
    · rw [← heq]
      norm_num
    · have hmod : (98304 - u) % 65536 = 98304 - u := Nat.mod_eq_of_lt (by omega)
      rw [hmod, if_neg (by omega : ¬ 98304 - u < 32768)]
      push_cast [Nat.cast_sub (by omega : u ≤ 98304)]
      omega

/-- Witness for C2: the negative-zero pattern 0x8000 and the pattern 0xA000. -/
theorem C2_witness :
    parse_height 128 0 = heightRefSpec (256 * 128 + 0) ∧
      heightRefSpec (256 * 128 + 0) = 0 :=
  ⟨C2_parse_height_signMagnitude 128 0 (by decide) (by decide), by decide⟩

theorem parse_angle_short (input : List Nat) (h : input.length < 8) :
    parse_angle input = none := by
  unfold parse_angle
  rcases h3 : nomTake 3 input with _ | ⟨r3, deg3⟩
  · rfl
  · simp only []
    rcases hn : nomU16 deg3 with _ | d
    · rfl
    · simp only []
      rcases h4 : nomTake 4 r3 with _ | ⟨r4, m4⟩
      · rfl
      · simp only []
        have hr4 : r4 = [] := by
          apply List.eq_nil_of_length_eq_zero
          rw [(nomTake_inv h4).2, (nomTake_inv h3).2]
          simp only [List.length_drop]
          omega
        rw [hr4]

/-- C8 counterexample: the 8-byte input "0ab0000N" parses successfully (to
angle 0) although its 3-byte degrees field "0ab" is not a decimal integer —
nom's u16 only requires a leading digit and stops at the first non-digit, so
the claimed "fails if and only if ... not a decimal integer" is false. -/
theorem C8_counterexample :
    parse_angle [48, 97, 98, 48, 48, 48, 48, 78] = some ([], 0) ∧
      ¬ isDecimalIntegerField ([48, 97, 98, 48, 48, 48, 48, 78].take 3) := by
  constructor
  · with_unfolding_all decide
  · decide

/-- C8 amended: the 8-byte angle parser fails if and only if fewer than 8
bytes remain, the FIRST byte of the degrees field is not an ASCII digit, or
the hemisphere byte is not one of N, E, S, W; on success it consumes exactly
8 bytes and returns sign × degrees, where degrees is the value of the
longest ASCII-digit prefix of the 3-byte field and the sign is +1 for N or E
and −1 for S or W. -/
theorem C8_parse_angle_spec (input : List Nat) :
    (parse_angle input = none ↔
      input.length < 8 ∨ isAsciiDigit (input.getD 0 0) = false ∨
        (input.getD 7 0 ≠ 78 ∧ input.getD 7 0 ≠ 69 ∧
          input.getD 7 0 ≠ 83 ∧ input.getD 7 0 ≠ 87)) ∧
    ∀ rest v, parse_angle input = some (rest, v) →
      rest = input.drop 8 ∧
      v = hemiSign (input.getD 7 0) * (digitPrefixVal (input.take 3) 0 : ℚ) := by
  by_cases hlen : input.length < 8
  · refine ⟨by simp [parse_angle_short input hlen, hlen], ?_⟩
    intro rest v hv
    rw [parse_angle_short input hlen] at hv
    cases hv
  · rcases input with _ | ⟨b0, input⟩
    · simp at hlen
    rcases input with _ | ⟨b1, input⟩
    · simp at hlen
    rcases input with _ | ⟨b2, input⟩
    · simp at hlen
    rcases input with _ | ⟨b3, input⟩
    · simp at hlen
    rcases input with _ | ⟨b4, input⟩
    · simp at hlen
    rcases input with _ | ⟨b5, input⟩
    · simp at hlen
    rcases input with _ | ⟨b6, input⟩
    · simp at hlen
    rcases input with _ | ⟨b7, t⟩
    · simp at hlen
    have hlen8 : ¬ (b0 :: b1 :: b2 :: b3 :: b4 :: b5 :: b6 :: b7 :: t).length < 8 := by
      simp only [List.length_cons]
      omega
    rw [parse_angle_cons8]
    simp only [List.getD_cons_zero, List.getD_cons_succ, List.take_succ_cons,
      List.take_zero, List.drop_succ_cons, List.drop_zero]
    by_cases hd : isAsciiDigit b0
    · rw [show nomU16 [b0, b1, b2] = some (digitPrefixVal [b0, b1, b2] 0) from by
        unfold nomU16
        simp only []
        rw [if_pos hd]]
      simp only []
      by_cases h78 : b7 = 78 ∨ b7 = 69
      · rw [if_pos h78]
        constructor
        · simp only [reduceCtorEq, false_iff]
          push_neg
          refine ⟨by simp only [List.length_cons]; omega, by simp [hd], ?_⟩
          intro h1 h2 h3
          rcases h78 with h | h
          exacts [absurd h h1, absurd h h2]
        · intro rest v hv
          simp only [Option.some.injEq, Prod.mk.injEq] at hv
          refine ⟨hv.1.symm, ?_⟩
          rw [← hv.2, hemiSign, if_pos h78, one_mul]
      · by_cases h83 : b7 = 83 ∨ b7 = 87
        · rw [if_neg h78, if_pos h83]
          constructor
          · simp only [reduceCtorEq, false_iff]
            push_neg
            refine ⟨by simp only [List.length_cons]; omega, by simp [hd], ?_⟩
            intro h1 h2 h3
            rcases h83 with h | h
            exacts [absurd h h3, h]
          · intro rest v hv
            simp only [Option.some.injEq, Prod.mk.injEq] at hv
            refine ⟨hv.1.symm, ?_⟩
            rw [← hv.2, hemiSign, if_neg h78, neg_one_mul]
        · rw [if_neg h78, if_neg h83]
          constructor
          · simp only [true_iff]
            right; right
            push_neg at h78 h83
            exact ⟨h78.1, h78.2, h83.1, h83.2⟩
          · intro rest v hv
            cases hv
    · rw [show nomU16 [b0, b1, b2] = none from by
        unfold nomU16
        simp only []
        rw [if_neg hd]]
      simp only []
      constructor
      · simp only [true_iff]
        right; left
        simpa using hd
      · intro rest v hv
        cases hv

/-- Witness for the amended C8: the well-formed field "0080000E". -/
theorem C8_witness :
    parse_angle lonAngle8E = none ↔
      lonAngle8E.length < 8 ∨ isAsciiDigit (lonAngle8E.getD 0 0) = false ∨
        (lonAngle8E.getD 7 0 ≠ 78 ∧ lonAngle8E.getD 7 0 ≠ 69 ∧
          lonAngle8E.getD 7 0 ≠ 83 ∧ lonAngle8E.getD 7 0 ≠ 87) :=
  (C8_parse_angle_spec lonAngle8E).1

theorem record_mismatch_none (nLats : Nat) (chunk : List Nat)
    (hbad : ¬ recordChecksumOk nLats chunk) :
    parse_dted_record_into nLats chunk = none := by
  simp only [parse_dted_record_into]
  rcases hb : be_u32 (chunk.drop (nLats * 2 + 8)) with _ | c
  · rfl
  · simp only []
    by_cases hc : byteSum32 (chunk.take (nLats * 2 + 8)) ≠ c
    · rw [if_pos hc]
    · push_neg at hc
      exact absurd (show recordChecksumOk nLats chunk by
        unfold recordChecksumOk
        rw [hb, hc]) hbad

theorem parseRecords_records_ok (nLats rs : Nat) (nLons : Nat) (input : List Nat)
    (out : List Int) (hrec : parseRecords nLats rs nLons input = some out) :
    ∀ j, j < nLons →
      parse_dted_record_into nLats ((input.drop (j * rs)).take rs) ≠ none := by
  induction nLons generalizing input out with
  | zero =>
    intro j hj
    omega
  | succ n ih =>
    unfold parseRecords at hrec
    rcases h0 : parse_dted_record_into nLats (input.take rs) with _ | col <;>
      rw [h0] at hrec
    · cases hrec
    simp only [] at hrec
    rcases h1 : parseRecords nLats rs n (input.drop rs) with _ | rest <;>
      rw [h1] at hrec
    · cases hrec
    intro j hj
    cases j with
    | zero =>
      simp only [Nat.zero_mul, List.drop_zero]
      rw [h0]
      exact fun hcontra => Option.noConfusion hcontra
    | succ j =>
      have hstep := ih (input.drop rs) rest h1 j (by omega)
      rw [List.drop_drop] at hstep
      rw [show (j + 1) * rs = rs + j * rs by ring]
      exact hstep

theorem parse_dted_data_mismatch (h : DtedHeader) (input : List Nat)
    (hlat : 1 ≤ h.num_lat_points) (j : Nat) (hj : j < h.num_lon_points)
    (hbad : ¬ recordChecksumOk h.num_lat_points
      ((input.drop (j * (h.num_lat_points * 2 + 8 + 4))).take
        (h.num_lat_points * 2 + 8 + 4))) :
    parse_dted_data h input = .err ∨ parse_dted_data h input = .eofErr := by
  simp only [parse_dted_data]
  by_cases hlen : input.length < (h.num_lat_points * 2 + 8 + 4) * h.num_lon_points
  · right
    rw [if_pos hlen]
  · left
    rw [if_neg hlen, if_neg (by omega : ¬ h.num_lat_points = 0)]
    rcases hrec : parseRecords h.num_lat_points (h.num_lat_points * 2 + 8 + 4)
        h.num_lon_points input with _ | out
    · rfl
    · exact ((parseRecords_records_ok _ _ _ _ _ hrec j hj)
        (record_mismatch_none _ _ hbad)).elim

/-- C1 amended: provided the header declares at least one latitude point, a
checksum mismatch in any record makes the whole decode fail with a returned
(Invalid) error and no tile; when `num_lat_points = 0` the decoder instead
panics (`chunks_exact_mut` with chunk size 0) before checking any record. -/
theorem C1_checksum_mismatch_fails (input hdrRest : List Nat) (hd : DtedHeader)
    (hhdr : parse_user_header_label input = some (hdrRest, hd))
    (hlat : 1 ≤ hd.num_lat_points)
    (j : Nat) (hj : j < hd.num_lon_points)
    (hbad : ¬ recordChecksumOk hd.num_lat_points
      (((hdrRest.drop 3348).drop (j * (hd.num_lat_points * 2 + 8 + 4))).take
        (hd.num_lat_points * 2 + 8 + 4))) :
    parse_dted_tile input = .err ∨ parse_dted_tile input = .eofErr := by
  unfold parse_dted_tile
  rw [hhdr]
  simp only []
  rcases ht : nomTake 3348 hdrRest with _ | ⟨rest2, sk⟩
  · right
    rfl
  · obtain ⟨hsk, hrest2⟩ := nomTake_inv ht
    subst hrest2
    simp only []
    rcases parse_dted_data_mismatch hd (hdrRest.drop 3348) hlat j hj hbad with
      hcase | hcase <;> rw [hcase]
    · left
      rfl
    · right
      rfl

/-- Witness for the amended C1: a full buffer with a corrupted record is
rejected with a returned error. -/
theorem C1_witness :
    parse_dted_tile (hdr1Bytes ++ (List.replicate 3348 48 ++ record14bad)) = .err ∨
      parse_dted_tile (hdr1Bytes ++ (List.replicate 3348 48 ++ record14bad)) = .eofErr :=
  C1_checksum_mismatch_fails _ _ hdr1
    (hdr1_eval (List.replicate 3348 48 ++ record14bad))
    (by decide) 0 (by decide)
    (by
      rw [List.drop_left' (List.length_replicate 3348 48)]
      decide)

/-- C1 counterexample: the buffer `tileC1Bytes` declares zero latitude
points and carries a record whose stored checksum (1) does not match the
byte sum (0); the decode does NOT fail with an Invalid error — it panics in
`chunks_exact_mut` before any record is examined, so the claim's "fails with
an Invalid error" is false for this input. -/
theorem C1_counterexample :
    parse_dted_tile tileC1Bytes = .panic ∧ ¬ recordChecksumOk 0 record12bad :=
  ⟨tileC1_eval, by decide⟩

theorem heightsOf_length (l : List Nat) (n : Nat) (h : 2 * n ≤ l.length) :
    (heightsOf l n).length = n := by
  induction n generalizing l with
  | zero =>
    rcases l with _ | ⟨a, _ | ⟨b, t⟩⟩ <;> rfl
  | succ n ih =>
    rcases l with _ | ⟨a, _ | ⟨b, t⟩⟩
    · simp at h
    · simp only [List.length_cons, List.length_nil] at h
      omega
    · have ht : 2 * n ≤ t.length := by
        simp only [List.length_cons] at h
        omega
      rw [show heightsOf (a :: b :: t) (n + 1) = parse_height a b :: heightsOf t n from rfl]
      simp only [List.length_cons, ih t ht]

theorem heightsOf_getElem? (l : List Nat) (n i : Nat) (hi : i < n)
    (hl : 2 * i + 1 < l.length) :
    (heightsOf l n)[i]? =
      some (parse_height (l.getD (2 * i) 0) (l.getD (2 * i + 1) 0)) := by
  induction i generalizing l n with
  | zero =>
    rcases n with _ | n
    · omega
    rcases l with _ | ⟨a, _ | ⟨b, t⟩⟩
    · simp at hl
    · simp at hl
    · rw [show heightsOf (a :: b :: t) (n + 1) = parse_height a b :: heightsOf t n from rfl]
      simp [List.getD]
  | succ i ih =>
    rcases n with _ | n
    · omega
    rcases l with _ | ⟨a, _ | ⟨b, t⟩⟩
    · simp at hl
    · simp at hl
    · have hl2 : 2 * i + 1 < t.length := by
        simp only [List.length_cons] at hl
        omega
      rw [show heightsOf (a :: b :: t) (n + 1) = parse_height a b :: heightsOf t n from rfl,
        List.getElem?_cons_succ, ih t n (by omega) hl2,
        show 2 * (i + 1) = 2 * i + 1 + 1 by ring,
        show 2 * i + 1 + 1 + 1 = 2 * i + 1 + 1 + 1 from rfl]
      simp only [List.getD_cons_succ]

theorem record_into_some (nLats : Nat) (chunk : List Nat) (col : List Int)
    (h : parse_dted_record_into nLats chunk = some col) :
    col = heightsOf ((chunk.drop 8).take (nLats * 2 + 8 - 8)) nLats := by
  simp only [parse_dted_record_into] at h
  rcases hb : be_u32 (chunk.drop (nLats * 2 + 8)) with _ | c <;> rw [hb] at h
  · cases h
  · simp only [] at h
    split at h
    · cases h
    · injection h with h'
      exact h'.symm

theorem parseRecords_cons (nLats rs n : Nat) (input : List Nat) (out : List Int)
    (hrec : parseRecords nLats rs (n + 1) input = some out) :
    ∃ col rest, parse_dted_record_into nLats (input.take rs) = some col ∧
      parseRecords nLats rs n (input.drop rs) = some rest ∧ out = col ++ rest := by
  unfold parseRecords at hrec
  rcases h0 : parse_dted_record_into nLats (input.take rs) with _ | col <;>
    rw [h0] at hrec
  · cases hrec
  simp only [] at hrec
  rcases h1 : parseRecords nLats rs n (input.drop rs) with _ | rest <;>
    rw [h1] at hrec
  · cases hrec
  injection hrec with h'
  exact ⟨col, rest, rfl, rfl, h'.symm⟩

theorem parseRecords_get (nLats nLons : Nat) (input : List Nat) (out : List Int)
    (hlen : (nLats * 2 + 8 + 4) * nLons ≤ input.length)
    (hrec : parseRecords nLats (nLats * 2 + 8 + 4) nLons input = some out) :
    ∀ i j, i < nLats → j < nLons →
      out[j * nLats + i]? = some (recordHeight nLats input j i) := by
  induction nLons generalizing input out with
  | zero =>
    intro i j hi hj
    omega
  | succ n ih =>
    obtain ⟨col, rest, h0, h1, rfl⟩ := parseRecords_cons _ _ _ _ _ hrec
    have hrsle : nLats * 2 + 8 + 4 ≤ input.length := by
      rw [Nat.mul_succ] at hlen
      omega
    have hchunk : (input.take (nLats * 2 + 8 + 4)).length = nLats * 2 + 8 + 4 := by
      rw [List.length_take]
      omega
    have hcol : col = heightsOf
        (((input.take (nLats * 2 + 8 + 4)).drop 8).take (nLats * 2 + 8 - 8)) nLats :=
      record_into_some _ _ _ h0
    have hcollen : col.length = nLats := by
      rw [hcol]
      apply heightsOf_length
      simp only [List.length_take, List.length_drop, hchunk]
      omega
    intro i j hi hj
    cases j with
    | zero =>
      have hidx : 0 * nLats + i = i := by omega
      rw [hidx, List.getElem?_append_left (by omega : i < col.length), hcol,
        heightsOf_getElem? _ _ _ hi (by
          simp only [List.length_take, List.length_drop, hchunk]
          omega)]
      have e1 : (((input.take (nLats * 2 + 8 + 4)).drop 8).take (nLats * 2 + 8 - 8)).getD
          (2 * i) 0 = input.getD (8 + 2 * i) 0 := by
        simp only [List.getD_eq_getElem?_getD]
        rw [List.getElem?_take_of_lt (by omega : 2 * i < nLats * 2 + 8 - 8),
          List.getElem?_drop, List.getElem?_take_of_lt (by omega : 8 + 2 * i < nLats * 2 + 8 + 4)]
      have e2 : (((input.take (nLats * 2 + 8 + 4)).drop 8).take (nLats * 2 + 8 - 8)).getD
          (2 * i + 1) 0 = input.getD (8 + 2 * i + 1) 0 := by
        simp only [List.getD_eq_getElem?_getD]
        rw [List.getElem?_take_of_lt (by omega : 2 * i + 1 < nLats * 2 + 8 - 8),
          List.getElem?_drop, ← Nat.add_assoc,
          List.getElem?_take_of_lt (by omega : 8 + (2 * i) + 1 < nLats * 2 + 8 + 4)]
      rw [e1, e2]
      unfold recordHeight
      rw [show (0 : Nat) * (nLats * 2 + 8 + 4) + 8 + 2 * i = 8 + 2 * i by omega]
    | succ j =>
      have hlen2 : (nLats * 2 + 8 + 4) * n ≤ (input.drop (nLats * 2 + 8 + 4)).length := by
        rw [List.length_drop]
        rw [Nat.mul_succ] at hlen
        omega
      have hstep := ih (input.drop (nLats * 2 + 8 + 4)) rest hlen2 h1 i j hi (by omega)
      rw [List.getElem?_append_right (by
          rw [hcollen, Nat.succ_mul]
          omega : col.length ≤ (j + 1) * nLats + i),
        hcollen, show (j + 1) * nLats + i - nLats = j * nLats + i by
          rw [Nat.succ_mul]
          omega,
        hstep]
      unfold recordHeight
      simp only [List.getD_eq_getElem?_getD]
      rw [List.getElem?_drop, List.getElem?_drop,
        show nLats * 2 + 8 + 4 + (j * (nLats * 2 + 8 + 4) + 8 + 2 * i) =
          (j + 1) * (nLats * 2 + 8 + 4) + 8 + 2 * i by ring,
        show nLats * 2 + 8 + 4 + (j * (nLats * 2 + 8 + 4) + 8 + 2 * i + 1) =
          (j + 1) * (nLats * 2 + 8 + 4) + 8 + 2 * i + 1 by ring]

/-- C6: a successfully decoded data block yields a grid with exactly
`num_lat_points` rows and `num_lon_points` columns, and the entry at
(row i, column j) is the i-th decoded height of the j-th on-disk record. -/
theorem C6_grid_layout (h : DtedHeader) (input rest : List Nat) (g : Array2)
    (hok : parse_dted_data h input = .ok (rest, g)) :
    g.rows = h.num_lat_points ∧ g.cols = h.num_lon_points ∧
    ∀ i j, i < h.num_lat_points → j < h.num_lon_points →
      g.get i j = recordHeight h.num_lat_points input j i := by
  simp only [parse_dted_data] at hok
  by_cases hlen : input.length < (h.num_lat_points * 2 + 8 + 4) * h.num_lon_points
  · rw [if_pos hlen] at hok
    cases hok
  rw [if_neg hlen] at hok
  by_cases hz : h.num_lat_points = 0
  · rw [if_pos hz] at hok
    cases hok
  rw [if_neg hz] at hok
  rcases hrec : parseRecords h.num_lat_points (h.num_lat_points * 2 + 8 + 4)
      h.num_lon_points input with _ | data <;> rw [hrec] at hok
  · cases hok
  simp only [PResult.ok.injEq, Prod.mk.injEq] at hok
  obtain ⟨hrest, hg⟩ := hok
  subst hg
  refine ⟨rfl, rfl, ?_⟩
  intro i j hi hj
  have hget := parseRecords_get h.num_lat_points h.num_lon_points input data
    (by omega) hrec i j hi hj
  simp only [Array2.get, List.getD_eq_getElem?_getD]
  rw [hget]
  rfl

/-- Witness for C6: the decode of the single-record data block
`record14ok`. -/
theorem C6_witness :
    grid1.rows = hdr1.num_lat_points ∧ grid1.cols = hdr1.num_lon_points ∧
    ∀ i j, i < hdr1.num_lat_points → j < hdr1.num_lon_points →
      grid1.get i j = recordHeight hdr1.num_lat_points record14ok j i :=
  C6_grid_layout hdr1 record14ok [] grid1 data1_eval
